import Mathlib

/-!
Shallow embedding of the authorization core of the nagiyu typescript-common
repository: the permission level ordering and comparison
(AuthorizationServiceBase.comparePermissionLevel, in both copies present in
the source file), the permission matrix lookup, the hasPermission decision
procedure, the validate helper, and the CacheUtil key/value store with TTL
expiry, together with the getUserPermissions memoization wrapper.

Permission levels are modelled as the strings of the PermissionLevel string
enum, because the TypeScript code operates on those string values and the
defensive branches of the code are only reachable through values outside the
enum. The cache is modelled as a function from keys to optional entries, with
the current time passed explicitly where the code reads Date.now().
-/

/-- The five values of the PermissionLevel string enum, as an inductive type
for stating rank-based properties over the closed enumeration. -/
inductive PermissionLevel
  | NONE
  | VIEW
  | EDIT
  | DELETE
  | ADMIN
deriving DecidableEq

/-- The string value carried by each PermissionLevel enum member. -/
def PermissionLevel.toStr : PermissionLevel → String
  | .NONE => "none"
  | .VIEW => "view"
  | .EDIT => "edit"
  | .DELETE => "delete"
  | .ADMIN => "admin"

/-- Rank of a level in the fixed sequence NONE, VIEW, EDIT, DELETE, ADMIN. -/
def PermissionLevel.rank : PermissionLevel → Nat
  | .NONE => 0
  | .VIEW => 1
  | .EDIT => 2
  | .DELETE => 3
  | .ADMIN => 4

/-- Object.values(PermissionLevel): the five enum string values in
declaration order. -/
def permissionLevelValues : List String :=
  ["none", "view", "edit", "delete", "admin"]

/-- The UserType string enum (requester classification). -/
inductive UserType
  | GUEST
  | AUTHENTICATED
  | PREMIUM
  | ADMIN
deriving DecidableEq

/-- LEVEL_HIERARCHY: the array of permission level values used by
comparePermissionLevel, in ascending order of privilege. -/
def LEVEL_HIERARCHY : List String :=
  ["none", "view", "edit", "delete", "admin"]

/-- JavaScript Array.prototype.indexOf with a running index accumulator:
returns the index of the first occurrence, or -1 when absent. -/
def indexOfFrom : List String → String → Int → Int
  | [], _, _ => -1
  | a :: rest, x, i => if x = a then i else indexOfFrom rest x (i + 1)

/-- Array.prototype.indexOf starting from index 0. -/
def indexOf (l : List String) (x : String) : Int :=
  indexOfFrom l x 0

/-- comparePermissionLevel, first copy (AuthorizationServiceBase.ts lines
62-75): indexOf both levels in LEVEL_HIERARCHY, return false when either is
unknown (index -1), otherwise compare the indices. -/
def comparePermissionLevel (userLevel requiredLevel : String) : Bool :=
  let userLevelIndex := indexOf LEVEL_HIERARCHY userLevel
  let requiredLevelIndex := indexOf LEVEL_HIERARCHY requiredLevel
  if userLevelIndex = -1 ∨ requiredLevelIndex = -1 then
    false
  else
    decide (userLevelIndex ≥ requiredLevelIndex)

/-- comparePermissionLevel, second copy (AuthorizationServiceBase.ts lines
211-219): same indexOf computation, but without the guard for unknown
levels - the indices are compared directly. -/
def comparePermissionLevelV2 (userLevel requiredLevel : String) : Bool :=
  let userLevelIndex := indexOf LEVEL_HIERARCHY userLevel
  let requiredLevelIndex := indexOf LEVEL_HIERARCHY requiredLevel
  decide (userLevelIndex ≥ requiredLevelIndex)

/-- A permission matrix as it behaves at runtime: a feature key may be
absent, and a user type key may be absent within a feature row. -/
abbrev PermissionMatrix (F : Type) := F → Option (UserType → Option String)

/-- The matrix lookup expression permissionMatrix[feature]?.[userType] ||
PermissionLevel.NONE: an absent feature or user type yields NONE, and the
JavaScript || also maps a falsy stored value (the empty string) to NONE. -/
def lookupLevel {F : Type} (matrix : PermissionMatrix F)
    (feature : F) (userType : UserType) : String :=
  match matrix feature with
  | none => "none"
  | some row =>
    match row userType with
    | none => "none"
    | some lvl => if lvl = "" then "none" else lvl

/-- The two collaborator methods hasPermission depends on: the per-user
override getCustomPermission and the matrix provider getPermissionMatrix. -/
structure AuthService (F : Type) where
  getCustomPermission : String → F → Option String
  getPermissionMatrix : PermissionMatrix F

/-- Result of one hasPermission call, instrumented with which collaborators
the control flow actually consulted. -/
structure HasPermissionTrace where
  result : Bool
  customQueried : Bool
  matrixQueried : Bool
deriving DecidableEq

/-- hasPermission, first copy (AuthorizationServiceBase.ts lines 35-53):
when userId is truthy (present and non-empty), query getCustomPermission
and, if an override is present, decide from it alone; otherwise decide from
the matrix lookup. The trace records which collaborators were consulted. -/
def hasPermissionTr {F : Type} (svc : AuthService F) (userType : UserType)
    (feature : F) (requiredLevel : String) (userId : Option String) :
    HasPermissionTrace :=
  match userId with
  | some uid =>
    if uid ≠ "" then
      match svc.getCustomPermission uid feature with
      | some customPermission =>
        ⟨comparePermissionLevel customPermission requiredLevel, true, false⟩
      | none =>
        ⟨comparePermissionLevel
          (lookupLevel svc.getPermissionMatrix feature userType) requiredLevel,
          true, true⟩
    else
      ⟨comparePermissionLevel
        (lookupLevel svc.getPermissionMatrix feature userType) requiredLevel,
        false, true⟩
  | none =>
    ⟨comparePermissionLevel
      (lookupLevel svc.getPermissionMatrix feature userType) requiredLevel,
      false, true⟩

/-- The boolean decision of the first copy of hasPermission. -/
def hasPermission {F : Type} (svc : AuthService F) (userType : UserType)
    (feature : F) (requiredLevel : String) (userId : Option String) : Bool :=
  (hasPermissionTr svc userType feature requiredLevel userId).result

/-- hasPermission, second copy (AuthorizationServiceBase.ts lines 184-202):
identical control flow, but every comparison goes through the unguarded
comparePermissionLevelV2. -/
def hasPermissionTrV2 {F : Type} (svc : AuthService F) (userType : UserType)
    (feature : F) (requiredLevel : String) (userId : Option String) :
    HasPermissionTrace :=
  match userId with
  | some uid =>
    if uid ≠ "" then
      match svc.getCustomPermission uid feature with
      | some customPermission =>
        ⟨comparePermissionLevelV2 customPermission requiredLevel, true, false⟩
      | none =>
        ⟨comparePermissionLevelV2
          (lookupLevel svc.getPermissionMatrix feature userType) requiredLevel,
          true, true⟩
    else
      ⟨comparePermissionLevelV2
        (lookupLevel svc.getPermissionMatrix feature userType) requiredLevel,
        false, true⟩
  | none =>
    ⟨comparePermissionLevelV2
      (lookupLevel svc.getPermissionMatrix feature userType) requiredLevel,
      false, true⟩

/-- The boolean decision of the second copy of hasPermission. -/
def hasPermissionV2 {F : Type} (svc : AuthService F) (userType : UserType)
    (feature : F) (requiredLevel : String) (userId : Option String) : Bool :=
  (hasPermissionTrV2 svc userType feature requiredLevel userId).result

/-- validate (AuthorizationServiceBase.ts lines 140-144): throw
BadRequestError when the level is falsy or not among
Object.values(PermissionLevel), otherwise return normally. -/
def validate {F : Type} (feature : F) (level : String) : Except String Unit :=
  if level = "" ∨ level ∉ permissionLevelValues then
    Except.error "Invalid permission level"
  else
    Except.ok ()

/-- One CacheUtil entry: the stored value, the Date.now() millisecond
timestamp recorded by set, and the optional per-entry ttl in seconds. -/
structure CacheType (V : Type) where
  value : V
  timestamp : Int
  ttl : Option Int
deriving DecidableEq

/-- The CacheUtil backing store: a record mapping string keys to entries. -/
abbrev Cache (V : Type) := String → Option (CacheType V)

/-- Boolean prefix test on character lists, the semantics of
String.prototype.startsWith. -/
def listIsPrefix : List Char → List Char → Bool
  | [], _ => true
  | _ :: _, [] => false
  | a :: as, b :: bs => a = b && listIsPrefix as bs

/-- key.startsWith(pfx) for strings. -/
def strStartsWith (s pfx : String) : Bool :=
  listIsPrefix pfx.data s.data

namespace CacheUtil

/-- The default TTL of CacheUtil: 10 minutes in milliseconds. -/
def CACHE_TTL : Int := 10 * 60 * 1000

/-- The effective expiry bound of an entry in milliseconds:
cacheData.ttl !== undefined ? cacheData.ttl * 1000 : CACHE_TTL. -/
def effectiveTtl {V : Type} (cacheData : CacheType V) : Int :=
  match cacheData.ttl with
  | some t => t * 1000
  | none => CACHE_TTL

/-- CacheUtil.get: absent key yields null; a present entry is returned while
now - timestamp < effective TTL, otherwise it is deleted and null is
returned. The pair carries the store as it stands after the call. -/
def get {V : Type} (cache : Cache V) (key : String) (now : Int) :
    Option V × Cache V :=
  match cache key with
  | none => (none, cache)
  | some cacheData =>
    if now - cacheData.timestamp < effectiveTtl cacheData then
      (some cacheData.value, cache)
    else
      (none, fun k => if k = key then none else cache k)

/-- CacheUtil.set: store or overwrite the entry with the current timestamp,
recording the ttl field only when one was passed. -/
def set {V : Type} (cache : Cache V) (key : String) (value : V)
    (ttl : Option Int) (now : Int) : Cache V :=
  fun k => if k = key then some ⟨value, now, ttl⟩ else cache k

/-- CacheUtil.delete: remove one key unconditionally. -/
def delete {V : Type} (cache : Cache V) (key : String) : Cache V :=
  fun k => if k = key then none else cache k

/-- CacheUtil.clearByPrefix: delete every stored key that starts with the
given string. -/
def clearByPrefix {V : Type} (cache : Cache V) (pfx : String) : Cache V :=
  fun k => if strStartsWith k pfx then none else cache k

end CacheUtil

/-- AuthorizationServiceBase.CACHE_PREFIX, the per-user cache key stem. -/
def CACHE_PREFIX : String := "user_permissions_"

/-- AuthorizationServiceBase.CACHE_TTL, the permission cache TTL in
seconds. -/
def AUTH_CACHE_TTL : Int := 300

/-- getUserPermissions (AuthorizationServiceBase.ts lines 243-257): return
the cached permission map when the cache holds a valid entry under
CACHE_PREFIX + userId; otherwise call loadUserPermissions, store its result
under that key with the 300 second TTL, and return it. The pair carries the
cache state after the call. -/
def getUserPermissions {P : Type} (loadUserPermissions : String → P)
    (cache : Cache P) (userId : String) (now : Int) : P × Cache P :=
  let cacheKey := CACHE_PREFIX ++ userId
  let cached := CacheUtil.get cache cacheKey now
  match cached.1 with
  | some c => (c, cached.2)
  | none =>
    let permissions := loadUserPermissions userId
    (permissions,
      CacheUtil.set cached.2 cacheKey permissions (some AUTH_CACHE_TTL) now)

/-- A concrete service used to instantiate the authorization theorems: one
override for user u1 on feature adminPanel, and a matrix row granting admin
to every user type on that feature. -/
def demoService : AuthService String where
  getCustomPermission := fun uid feature =>
    if uid = "u1" ∧ feature = "adminPanel" then some "none" else none
  getPermissionMatrix := fun feature =>
    if feature = "adminPanel" then some (fun _ => some "admin") else none

/-- A service whose override collaborator answers for the empty-string user
id, used to exercise the userId truthiness check. -/
def emptyOverrideService : AuthService String where
  getCustomPermission := fun uid _ => if uid = "" then some "admin" else none
  getPermissionMatrix := fun _ => none

/-- The cache state of the prefix-invalidation scenario: three entries set
at time 0 and then clearByPrefix with p_ applied. -/
def demoCleared : Cache Nat :=
  CacheUtil.clearByPrefix
    (CacheUtil.set
      (CacheUtil.set
        (CacheUtil.set (fun _ => none) "p_a" 1 none 0)
        "p_b" 2 none 0)
      "q_c" 3 none 0)
    "p_"

/-- A one-entry cache used to instantiate the expiry theorem. -/
def witnessCache : Cache Nat :=
  fun k => if k = "wk" then some ⟨5, 0, some 10⟩ else none

/-- A cache holding a valid permission entry for user u1, used to
instantiate the memoization theorem on its hit branch. -/
def hitCache : Cache Nat :=
  fun k => if k = "user_permissions_u1" then some ⟨7, 0, some 300⟩ else none

/-- A string outside LEVEL_HIERARCHY indexes to -1. -/
theorem indexOf_eq_neg_one_of_not_mem (x : String) (h : x ∉ LEVEL_HIERARCHY) :
    indexOf LEVEL_HIERARCHY x = -1 := by
  simp only [LEVEL_HIERARCHY, List.mem_cons, List.not_mem_nil, or_false,
    not_or] at h
  obtain ⟨h1, h2, h3, h4, h5⟩ := h
  simp [indexOf, indexOfFrom, LEVEL_HIERARCHY, h1, h2, h3, h4, h5]

/-- A string inside LEVEL_HIERARCHY indexes to a nonnegative position. -/
theorem indexOf_nonneg_of_mem (x : String) (h : x ∈ LEVEL_HIERARCHY) :
    0 ≤ indexOf LEVEL_HIERARCHY x := by
  simp only [LEVEL_HIERARCHY, List.mem_cons, List.not_mem_nil, or_false] at h
  rcases h with h | h | h | h | h <;> subst h <;> decide

/-- C1: the first copy of comparePermissionLevel is fail-closed - it equals
the membership-guarded index comparison, hence returns false whenever either
argument is outside the five levels - while the second copy, evaluated at
userLevel admin and the undefined level invalid_level, returns true, the
permissive result the claim rules out. -/
theorem comparePermissionLevel_fail_closed_v2_divergence :
    (∀ u r : String, comparePermissionLevel u r =
      (decide (u ∈ LEVEL_HIERARCHY) && decide (r ∈ LEVEL_HIERARCHY) &&
        decide (indexOf LEVEL_HIERARCHY u ≥ indexOf LEVEL_HIERARCHY r))) ∧
    comparePermissionLevel "admin" "invalid_level" = false ∧
    comparePermissionLevelV2 "admin" "invalid_level" = true := by
  refine ⟨?_, by decide, by decide⟩
  intro u r
  by_cases hu : u ∈ LEVEL_HIERARCHY
  · by_cases hr : r ∈ LEVEL_HIERARCHY
    · have hu2 := indexOf_nonneg_of_mem u hu
      have hr2 := indexOf_nonneg_of_mem r hr
      have hcond :
          ¬(indexOf LEVEL_HIERARCHY u = -1 ∨ indexOf LEVEL_HIERARCHY r = -1) := by
        omega
      simp [comparePermissionLevel, hcond, hu, hr]
    · have hr2 := indexOf_eq_neg_one_of_not_mem r hr
      simp [comparePermissionLevel, hr2, hr]
  · have hu2 := indexOf_eq_neg_one_of_not_mem u hu
    simp [comparePermissionLevel, hu2, hu]

/-- C4: over the five-element enumeration the comparison agrees with the
rank ordering of the sequence NONE, VIEW, EDIT, DELETE, ADMIN, and the four
quoted instances evaluate as the claim states. -/
theorem comparePermissionLevel_matches_rank :
    (∀ L1 L2 : PermissionLevel,
      comparePermissionLevel L1.toStr L2.toStr = decide (L1.rank ≥ L2.rank)) ∧
    comparePermissionLevel "admin" "view" = true ∧
    comparePermissionLevel "view" "edit" = false ∧
    comparePermissionLevel "edit" "edit" = true ∧
    comparePermissionLevel "none" "none" = true := by
  refine ⟨?_, by decide, by decide, by decide, by decide⟩
  intro L1 L2
  cases L1 <;> cases L2 <;> decide

/-- C8: validate returns normally exactly on the five enumerated levels and
signals the invalid-argument error on every other string. -/
theorem validate_rejects_unknown_levels {F : Type} (feature : F)
    (level : String) :
    validate feature level =
      if level ∈ permissionLevelValues then Except.ok ()
      else Except.error "Invalid permission level" := by
  by_cases h : level ∈ permissionLevelValues
  · have hne : level ≠ "" := by
      intro he
      subst he
      simp [permissionLevelValues] at h
    simp [validate, h, hne]
  · simp [validate, h]

/-- C2 counterexample: with the empty string as user id the override
collaborator of emptyOverrideService answers ADMIN, satisfies(ADMIN, VIEW)
is true, yet hasPermission decides from the matrix and returns false in both
copies - so the claim quantified over every user id fails at userId = "". -/
theorem override_precedence_fails_on_empty_userId :
    emptyOverrideService.getCustomPermission "" "cap" = some "admin" ∧
    comparePermissionLevel "admin" "view" = true ∧
    hasPermission emptyOverrideService UserType.GUEST "cap" "view"
      (some "") = false ∧
    hasPermissionV2 emptyOverrideService UserType.GUEST "cap" "view"
      (some "") = false := by
  refine ⟨rfl, by decide, by decide, by decide⟩

/-- C2 amended: for every non-empty user id whose override lookup returns a
level X (an explicit NONE included), both copies of hasPermission return
exactly the comparison of X against the required level, the override
collaborator is consulted, and the matrix is not. -/
theorem hasPermission_override_precedence {F : Type} (svc : AuthService F)
    (userType : UserType) (feature : F) (requiredLevel : String)
    (userId : String) (X : String) (hUid : userId ≠ "")
    (hov : svc.getCustomPermission userId feature = some X) :
    hasPermissionTr svc userType feature requiredLevel (some userId) =
      ⟨comparePermissionLevel X requiredLevel, true, false⟩ ∧
    hasPermissionTrV2 svc userType feature requiredLevel (some userId) =
      ⟨comparePermissionLevelV2 X requiredLevel, true, false⟩ := by
  constructor
  · simp [hasPermissionTr, hUid, hov]
  · simp [hasPermissionTrV2, hUid, hov]

/-- C2 amended, instantiated: the demo service override (u1, adminPanel,
NONE) forces the decision satisfies(NONE, VIEW) with the matrix left
unconsulted. -/
theorem hasPermission_override_precedence_witness :
    hasPermissionTr demoService UserType.GUEST "adminPanel" "view"
      (some "u1") = ⟨comparePermissionLevel "none" "view", true, false⟩ :=
  (hasPermission_override_precedence demoService UserType.GUEST "adminPanel"
    "view" "u1" "none" (by decide) (by rfl)).1

/-- C3: when the override lookup answers absent, both copies of
hasPermission decide from the matrix lookup, and that lookup yields NONE,
raising nothing, when the feature row or the user type entry is absent. -/
theorem hasPermission_matrix_fallback {F : Type} (svc : AuthService F)
    (userType : UserType) (feature : F) (requiredLevel : String)
    (userId : String)
    (hov : svc.getCustomPermission userId feature = none) :
    hasPermission svc userType feature requiredLevel (some userId) =
      comparePermissionLevel
        (lookupLevel svc.getPermissionMatrix feature userType) requiredLevel ∧
    hasPermissionV2 svc userType feature requiredLevel (some userId) =
      comparePermissionLevelV2
        (lookupLevel svc.getPermissionMatrix feature userType) requiredLevel ∧
    (∀ (matrix : PermissionMatrix F) (f : F) (ut : UserType),
      matrix f = none → lookupLevel matrix f ut = "none") ∧
    (∀ (matrix : PermissionMatrix F) (row : UserType → Option String)
      (f : F) (ut : UserType),
      matrix f = some row → row ut = none → lookupLevel matrix f ut = "none") := by
  refine ⟨?_, ?_, ?_, ?_⟩
  · by_cases he : userId = ""
    · subst he
      rfl
    · simp [hasPermission, hasPermissionTr, he, hov]
  · by_cases he : userId = ""
    · subst he
      rfl
    · simp [hasPermissionV2, hasPermissionTrV2, he, hov]
  · intro matrix f ut hm
    simp [lookupLevel, hm]
  · intro matrix row f ut hm hrow
    simp [lookupLevel, hm, hrow]

/-- C3, instantiated: user u2 has no override in the demo service, so the
decision equals the comparison of the matrix lookup result. -/
theorem hasPermission_matrix_fallback_witness :
    hasPermission demoService UserType.GUEST "adminPanel" "view"
      (some "u2") =
      comparePermissionLevel
        (lookupLevel demoService.getPermissionMatrix "adminPanel"
          UserType.GUEST) "view" :=
  (hasPermission_matrix_fallback demoService UserType.GUEST "adminPanel"
    "view" "u2" (by rfl)).1

/-- C10: calling either copy of hasPermission with the empty-string user id
produces the same instrumented outcome as calling it with no user id, and
the override collaborator is not queried. -/
theorem hasPermission_empty_userId_like_absent {F : Type}
    (svc : AuthService F) (userType : UserType) (feature : F)
    (requiredLevel : String) :
    hasPermissionTr svc userType feature requiredLevel (some "") =
      hasPermissionTr svc userType feature requiredLevel none ∧
    (hasPermissionTr svc userType feature requiredLevel
      (some "")).customQueried = false ∧
    hasPermissionTrV2 svc userType feature requiredLevel (some "") =
      hasPermissionTrV2 svc userType feature requiredLevel none ∧
    (hasPermissionTrV2 svc userType feature requiredLevel
      (some "")).customQueried = false :=
  ⟨rfl, rfl, rfl, rfl⟩

/-- C5: a stored entry is returned by get exactly while now - storedAt is
below its effective TTL (the per-entry seconds bound when given, the
600-second default otherwise), and an entry stored with TTL 0 reads back as
absent at the very moment it was stored. -/
theorem cache_ttl_expiry {V : Type} (cache : Cache V) (key : String)
    (now : Int) (e : CacheType V) (h : cache key = some e) :
    ((CacheUtil.get cache key now).1 = some e.value ↔
      now - e.timestamp < CacheUtil.effectiveTtl e) ∧
    (∀ (c : Cache V) (k : String) (v : V) (t : Int),
      (CacheUtil.get (CacheUtil.set c k v (some 0) t) k t).1 = none) := by
  constructor
  · by_cases hc : now - e.timestamp < CacheUtil.effectiveTtl e
    · simp [CacheUtil.get, h, hc]
    · simp [CacheUtil.get, h, hc]
  · intro c k v t
    have hlt : ¬ t - t < (0 : Int) * 1000 := by omega
    simp [CacheUtil.get, CacheUtil.set, CacheUtil.effectiveTtl, hlt]

/-- C5, instantiated: the witness cache entry for key wk, stored at time 0
with a 10 second TTL, is still returned at time 0. -/
theorem cache_ttl_expiry_witness :
    (CacheUtil.get witnessCache "wk" 0).1 = some 5 :=
  ((cache_ttl_expiry witnessCache "wk" 0 ⟨5, 0, some 10⟩ rfl).1).mpr
    (by decide)

/-- C6: setting a key with a positive TTL and reading it back with no time
elapsed returns exactly the stored value. -/
theorem cache_round_trip {V : Type} (cache : Cache V) (key : String) (v : V)
    (ttl : Int) (h : 0 < ttl) (now : Int) :
    (CacheUtil.get (CacheUtil.set cache key v (some ttl) now) key now).1 =
      some v := by
  have hlt : now - now < ttl * 1000 := by omega
  simp [CacheUtil.get, CacheUtil.set, CacheUtil.effectiveTtl, hlt, h]

/-- C6, instantiated at TTL 60 on an empty cache. -/
theorem cache_round_trip_witness :
    (CacheUtil.get
      (CacheUtil.set (fun _ => none) "k" (7 : Nat) (some 60) 0) "k" 0).1 =
      some 7 :=
  cache_round_trip (fun _ => none) "k" 7 60 (by decide) 0

/-- C7: clearByPrefix removes exactly the keys that start with the given
string and leaves every other entry unchanged, the empty string clears every
key, and in the three-entry scenario the two p_ keys read back absent while
q_c still reads 3. -/
theorem clearByPrefix_removes_exactly_matching :
    (∀ (V : Type) (cache : Cache V) (pfx key : String),
      CacheUtil.clearByPrefix cache pfx key =
        if strStartsWith key pfx then none else cache key) ∧
    (∀ (V : Type) (cache : Cache V) (key : String),
      CacheUtil.clearByPrefix cache "" key = none) ∧
    (CacheUtil.get demoCleared "p_a" 0).1 = none ∧
    (CacheUtil.get demoCleared "p_b" 0).1 = none ∧
    (CacheUtil.get demoCleared "q_c" 0).1 = some 3 := by
  refine ⟨fun V cache pfx key => rfl, ?_, by decide, by decide, by decide⟩
  intro V cache key
  simp [CacheUtil.clearByPrefix, strStartsWith, listIsPrefix]

/-- C9: getUserPermissions returns the cached map, without touching the
loader, whenever get finds a valid entry under the key
user_permissions_ + userId; on a miss it returns the loader result after
storing it under that key with the 300 second TTL. -/
theorem getUserPermissions_memoizes {P : Type} (load : String → P)
    (cache : Cache P) (userId : String) (now : Int) :
    (∀ m : P, (CacheUtil.get cache (CACHE_PREFIX ++ userId) now).1 = some m →
      getUserPermissions load cache userId now =
        (m, (CacheUtil.get cache (CACHE_PREFIX ++ userId) now).2)) ∧
    ((CacheUtil.get cache (CACHE_PREFIX ++ userId) now).1 = none →
      getUserPermissions load cache userId now =
        (load userId,
          CacheUtil.set (CacheUtil.get cache (CACHE_PREFIX ++ userId) now).2
            (CACHE_PREFIX ++ userId) (load userId) (some AUTH_CACHE_TTL)
            now)) := by
  constructor
  · intro m h
    simp [getUserPermissions, h]
  · intro h
    simp [getUserPermissions, h]

/-- C9, instantiated: an empty cache misses, so the loader value 42 is
returned and stored with TTL 300 under user_permissions_u1; the hit cache
returns its stored 7 without consulting the loader. -/
theorem getUserPermissions_memoizes_witness :
    getUserPermissions (fun _ => (42 : Nat)) (fun _ => none) "u1" 0 =
      (42, CacheUtil.set (fun _ => none) (CACHE_PREFIX ++ "u1") 42
        (some AUTH_CACHE_TTL) 0) ∧
    getUserPermissions (fun _ => (42 : Nat)) hitCache "u1" 0 =
      (7, hitCache) :=
  ⟨(getUserPermissions_memoizes (fun _ => (42 : Nat)) (fun _ => none)
      "u1" 0).2 rfl,
   (getUserPermissions_memoizes (fun _ => (42 : Nat)) hitCache
      "u1" 0).1 7 rfl⟩
